import Mathlib

/-!
Verification development for the recruiting funnel & reconciliation engine.

The definitions below are a shallow embedding of the JavaScript sources:
  * `src/src/utils/calendar.js` — funnel calculator (`calculateRequiredOutreach`,
    `DEFAULT_RATES`);
  * `src/src/utils/gem.js` — outreach (Gem CRM) adapter: event classification and
    `getMonthlyOutreachData`, plus the retrying `_get` client;
  * `src/unnamed/part_000` — pipeline (Ashby ATS) adapter: `_post` retry loop and
    `getMonthlyFunnelData`;
  * `src/src/utils/sync.js` — `SyncOrchestrator`: per-provider cached sync
    (`_syncGem` / `_syncAshby`), the merge step (`_mergeData`) and `syncAll`.

JavaScript numbers for the funnel math are modelled as exact rationals (the
decimal rate literals are exactly representable as `ℚ`, and every concrete
ceiling computed in the theorems below is far from a floating-point rounding
boundary).  JavaScript objects used as string-keyed count maps are modelled as
association lists (`Obj`), where assignment `o[k] = v` updates the first
binding of `k` in place or appends a fresh one (`objSet`), matching JS
insertion-order semantics.  Timestamps are modelled as integers (milliseconds).
-/

/-! ### Funnel calculator (src/src/utils/calendar.js) -/

/-- The six-stage conversion-rate chain (`ConversionRates` in the spec). -/
structure ConversionRates where
  responseRate : ℚ
  interestRate : ℚ
  screenRate : ℚ
  passThrough : ℚ
  offerRate : ℚ
  acceptRate : ℚ
deriving DecidableEq, Repr

/-- `DEFAULT_RATES` from calendar.js. -/
def DEFAULT_RATES : ConversionRates :=
  { responseRate := 0.15
    interestRate := 0.60
    screenRate := 0.80
    passThrough := 0.25
    offerRate := 0.50
    acceptRate := 0.80 }

/-- `Math.ceil(x / r)` applied to an integer numerator and a rational rate. -/
def ceilDiv (x : ℤ) (r : ℚ) : ℤ := ⌈(x : ℚ) / r⌉

/-- Result record of `calculateRequiredOutreach`. -/
structure FunnelRequirement where
  hires : ℤ
  offers : ℤ
  finals : ℤ
  screens : ℤ
  interested : ℤ
  responses : ℤ
  outreach : ℤ
deriving DecidableEq, Repr

/-- `calculateRequiredOutreach` from calendar.js: walk backward from hires,
dividing by each stage's conversion rate and taking `Math.ceil`. -/
def calculateRequiredOutreach (hireTarget : ℤ) (rates : ConversionRates) :
    FunnelRequirement :=
  let offersNeeded := ceilDiv hireTarget rates.acceptRate
  let finalsNeeded := ceilDiv offersNeeded rates.offerRate
  let screensNeeded := ceilDiv finalsNeeded rates.passThrough
  let interestedNeeded := ceilDiv screensNeeded rates.screenRate
  let responsesNeeded := ceilDiv interestedNeeded rates.interestRate
  let outreachNeeded := ceilDiv responsesNeeded rates.responseRate
  { hires := hireTarget
    offers := offersNeeded
    finals := finalsNeeded
    screens := screensNeeded
    interested := interestedNeeded
    responses := responsesNeeded
    outreach := outreachNeeded }

/-! ### JavaScript string-keyed count objects -/

/-- A JS object used as a `roleName → count` map, as an insertion-ordered
association list. -/
abbrev Obj := List (String × Nat)

/-- `o[k]` — first binding wins, `none` when the key is absent. -/
def objGet : Obj → String → Option Nat
  | [], _ => none
  | (k', v) :: rest, k => if k' = k then some v else objGet rest k

/-- `o[k] || 0`. -/
def objGetD (m : Obj) (k : String) : Nat := (objGet m k).getD 0

/-- `o[k] = v` — update the existing binding in place, else append. -/
def objSet : Obj → String → Nat → Obj
  | [], k, v => [(k, v)]
  | (k', v') :: rest, k, v =>
    if k' = k then (k, v) :: rest else (k', v') :: objSet rest k v

/-- `Object.keys(o)`. -/
def objKeys (m : Obj) : List String := m.map Prod.fst

/-- Helper for `dedupFirst`: structural recursion with a "seen" accumulator. -/
def dedupFirstAux (seen : List String) : List String → List String
  | [] => []
  | x :: xs =>
    if x ∈ seen then dedupFirstAux seen xs
    else x :: dedupFirstAux (x :: seen) xs

/-- `[...new Set(l)]` — deduplicate keeping the first occurrence. -/
def dedupFirst (l : List String) : List String := dedupFirstAux [] l



/-- Association-list read for string-valued JS objects (mapping configs). -/
def smGet : List (String × String) → String → Option String
  | [], _ => none
  | (k', v) :: rest, k => if k' = k then some v else smGet rest k

/-! ### Outreach adapter (src/src/utils/gem.js) -/

/-- Is `needle` a contiguous sublist of the character list? Underlies
`String.prototype.includes`. -/
def containsSub (needle : List Char) : List Char → Bool
  | [] => needle.isEmpty
  | c :: tl => needle.isPrefixOf (c :: tl) || containsSub needle tl

/-- `hay.includes(needle)`. -/
def jsIncludes (hay needle : String) : Bool := containsSub needle.toList hay.toList

/-- `s.toLowerCase()` (ASCII event-type strings), written on the underlying
character list so that it evaluates by kernel reduction. -/
def jsToLower (s : String) : String := ⟨s.data.map Char.toLower⟩

/-- `a || b` on JS strings (empty string is falsy). -/
def jsOrStr (a b : String) : String := if a = "" then b else a

/-- The outreach vocabulary from `GemService._isOutreachEvent`. -/
def outreachTypes : List String :=
  ["outreach", "first_outreach", "follow_up", "followup",
   "email_sent", "inmail_sent", "inmail", "email",
   "phone_call", "text_message", "message_sent"]

/-- The response vocabulary from `GemService._isResponseEvent`. -/
def responseTypes : List String :=
  ["reply", "response", "replied", "email_replied",
   "inmail_replied", "responded"]

/-- `GemService._isOutreachEvent`: substring match against the outreach
vocabulary. -/
def isOutreachEvent (eventType : String) : Bool :=
  outreachTypes.any (fun t => jsIncludes eventType t)

/-- `GemService._isResponseEvent`: substring match against the response
vocabulary. -/
def isResponseEvent (eventType : String) : Bool :=
  responseTypes.any (fun t => jsIncludes eventType t)

inductive EventClass where
  | outreach
  | response
  | neither
deriving DecidableEq, Repr

/-- The event classification performed inside `getMonthlyOutreachData`'s event
loop: lowercase the type string, test the outreach vocabulary first, and only
on failure test the response vocabulary. -/
def classifyEvent (eventType : String) : EventClass :=
  let e := jsToLower eventType
  if isOutreachEvent e then .outreach
  else if isResponseEvent e then .response
  else .neither

/-- A Gem candidate activity event: `type` / `event_type` (empty string when
the field is absent) and `created_at` as a millisecond timestamp. -/
structure GemEvent where
  type : String
  event_type : String
  created_at : ℤ
deriving DecidableEq, Repr

/-- The `{ outreach, responses }` result object of `getMonthlyOutreachData`. -/
structure GemData where
  outreach : Obj
  responses : Obj
deriving DecidableEq, Repr

/-- One event-loop iteration of `getMonthlyOutreachData` (date filter, then
classify and increment the per-role counter). -/
def gemEventStep (startDate endDate : ℤ) (roleName : String) (acc : GemData)
    (ev : GemEvent) : GemData :=
  if ev.created_at < startDate ∨ ev.created_at > endDate then acc
  else
    let eventType := jsToLower (jsOrStr ev.type ev.event_type)
    if isOutreachEvent eventType then
      { acc with outreach := objSet acc.outreach roleName (objGetD acc.outreach roleName + 1) }
    else if isResponseEvent eventType then
      { acc with responses := objSet acc.responses roleName (objGetD acc.responses roleName + 1) }
    else acc

/-- `GemService.getMonthlyOutreachData`.  `candidatesOf` gives the candidate
ids of a project (the result of `getProjectCandidates`, `[]` on failure) and
`eventsOf` the events of a candidate (the result of `getCandidateEvents`). -/
def getMonthlyOutreachData (startDate endDate : ℤ)
    (projectToRoleMap : List (String × String))
    (candidatesOf : String → List String)
    (eventsOf : String → List GemEvent) : GemData :=
  let mappedRoles := dedupFirst (projectToRoleMap.map Prod.snd)
  let init : GemData :=
    { outreach := mappedRoles.map (fun r => (r, 0))
      responses := mappedRoles.map (fun r => (r, 0)) }
  projectToRoleMap.foldl
    (fun acc entry =>
      let projectId := entry.1
      let roleName := entry.2
      if roleName = "" ∨ roleName = "ignore" then acc
      else
        (candidatesOf projectId).foldl
          (fun acc cid =>
            (eventsOf cid).foldl (gemEventStep startDate endDate roleName) acc)
          acc)
    init


/-- Invariant threaded through `getMonthlyOutreachData`'s folds: both counters
keep the seeded key set, and the seeded entries of the "" and "ignore" keys
are never touched. -/
def GemInv (roles : List String) (seed : Obj) (acc : GemData) : Prop :=
  objKeys acc.outreach = roles ∧ objKeys acc.responses = roles ∧
  ∀ r, r = "" ∨ r = "ignore" →
    objGet acc.outreach r = objGet seed r ∧ objGet acc.responses r = objGet seed r

/-! ### Pipeline adapter (src/unnamed/part_000, AshbyService) -/

/-- An Ashby application, with the fields read by `getMonthlyFunnelData`
(`updatedAt` is `none` when absent, falling back to `createdAt`; `stageId`
models `currentInterviewStageId || currentInterviewStage?.id`). -/
structure AshbyApp where
  updatedAt : Option ℤ
  createdAt : ℤ
  jobId : String
  stageId : Option String
  status : String
deriving DecidableEq, Repr

/-- An Ashby offer, with the fields read by the secondary offers pass
(`createdAt` is `none` when absent, falling back to `updatedAt`). -/
structure AshbyOffer where
  createdAt : Option ℤ
  updatedAt : ℤ
  jobId : String
  status : String
deriving DecidableEq, Repr

/-- The `{ screens, finals, offers, hires }` result of
`getMonthlyFunnelData`. -/
structure FunnelData where
  screens : Obj
  finals : Obj
  offers : Obj
  hires : Obj
deriving DecidableEq, Repr

/-- `new Set(Object.values(jobToRoleMap).filter(r => r && r !== 'ignore'))`. -/
def mappedRolesOf (jobToRoleMap : List (String × String)) : List String :=
  dedupFirst ((jobToRoleMap.map Prod.snd).filter
    (fun r => !(r == "") && !(r == "ignore")))

/-- The zero-seeded four-bucket record for every mapped role. -/
def seedFunnel (jobToRoleMap : List (String × String)) : FunnelData :=
  { screens := (mappedRolesOf jobToRoleMap).map (fun r => (r, 0))
    finals := (mappedRolesOf jobToRoleMap).map (fun r => (r, 0))
    offers := (mappedRolesOf jobToRoleMap).map (fun r => (r, 0))
    hires := (mappedRolesOf jobToRoleMap).map (fun r => (r, 0)) }

/-- The `switch (classification)` bucket increment of the applications
pass. -/
def bumpBucket (roleName classification : String) (acc : FunnelData) : FunnelData :=
  if classification = "screen" then
    { acc with screens := objSet acc.screens roleName (objGetD acc.screens roleName + 1) }
  else if classification = "final" then
    { acc with finals := objSet acc.finals roleName (objGetD acc.finals roleName + 1) }
  else if classification = "offer" then
    { acc with offers := objSet acc.offers roleName (objGetD acc.offers roleName + 1) }
  else if classification = "hired" then
    { acc with hires := objSet acc.hires roleName (objGetD acc.hires roleName + 1) }
  else acc

/-- One iteration of the applications pass of `getMonthlyFunnelData`:
date filter, job-to-role mapping, stage classification, bucket increment,
then the independent status-based hire increment. -/
def stepApp (jobToRoleMap stageClassification : List (String × String))
    (startDate endDate : ℤ) (acc : FunnelData) (app : AshbyApp) : FunnelData :=
  let appDate := app.updatedAt.getD app.createdAt
  if appDate < startDate ∨ appDate > endDate then acc
  else
    match smGet jobToRoleMap app.jobId with
    | none => acc
    | some roleName =>
      if roleName = "" ∨ roleName = "ignore" then acc
      else
        match app.stageId.bind (fun sid => smGet stageClassification sid) with
        | none => acc
        | some classification =>
          if classification = "" ∨ classification = "ignore" then acc
          else
            let acc1 := bumpBucket roleName classification acc
            if jsToLower app.status = "hired" ∧ classification ≠ "hired" then
              { acc1 with hires := objSet acc1.hires roleName (objGetD acc1.hires roleName + 1) }
            else acc1

/-- One iteration of the secondary offers pass: date filter, job-to-role
mapping, then — for approved/sent/accepted offers —
`offers[role] = Math.max(offers[role] || 0, offers[role] || 0)`. -/
def stepOffer (jobToRoleMap : List (String × String)) (startDate endDate : ℤ)
    (acc : FunnelData) (offer : AshbyOffer) : FunnelData :=
  let offerDate := offer.createdAt.getD offer.updatedAt
  if offerDate < startDate ∨ offerDate > endDate then acc
  else
    match smGet jobToRoleMap offer.jobId with
    | none => acc
    | some roleName =>
      if roleName = "" ∨ roleName = "ignore" then acc
      else
        if jsToLower offer.status = "approved" ∨ jsToLower offer.status = "sent" ∨
            jsToLower offer.status = "accepted" then
          { acc with offers := objSet acc.offers roleName (max (objGetD acc.offers roleName) (objGetD acc.offers roleName)) }
        else acc

/-- `AshbyService.getMonthlyFunnelData`: the zero seed, the applications pass,
then the offers pass.  `applications` and `offersList` are the (post-catch)
results of `getApplications` and `getOffers`. -/
def getMonthlyFunnelData (startDate endDate : ℤ)
    (jobToRoleMap stageClassification : List (String × String))
    (applications : List AshbyApp) (offersList : List AshbyOffer) : FunnelData :=
  let afterApps := applications.foldl
    (stepApp jobToRoleMap stageClassification startDate endDate)
    (seedFunnel jobToRoleMap)
  offersList.foldl (stepOffer jobToRoleMap startDate endDate) afterApps

/-- Key-set invariant threaded through both passes of
`getMonthlyFunnelData`. -/
def AshbyInv (roles : List String) (acc : FunnelData) : Prop :=
  objKeys acc.screens = roles ∧ objKeys acc.finals = roles ∧
  objKeys acc.offers = roles ∧ objKeys acc.hires = roles

/-! ### Sync orchestrator (src/src/utils/sync.js) -/

/-- `CACHE_TTL_MS = 60 * 60 * 1000` (1 hour). -/
def CACHE_TTL_MS : ℤ := 60 * 60 * 1000

/-- A per-provider per-month cache entry `{ lastSync, data }` (the ISO
timestamp is modelled as milliseconds). -/
structure CacheEntry (α : Type) where
  lastSync : ℤ
  data : α
deriving DecidableEq, Repr

/-- The six metric maps of a stored monthly record (the manual / prior
layer loaded from storage). -/
structure MonthlyData where
  outreach : Obj
  responses : Obj
  screens : Obj
  finals : Obj
  offers : Obj
  hires : Obj
deriving DecidableEq, Repr

/-- The default `{ outreach: {}, responses: {}, ... }` used when no record is
stored for the month. -/
def emptyMonthly : MonthlyData :=
  { outreach := [], responses := [], screens := [], finals := [], offers := [], hires := [] }

/-- The `_sources` provenance labels of a merged record. -/
structure SourceLabels where
  outreach : String
  responses : String
  screens : String
  finals : String
  offers : String
  hires : String
deriving DecidableEq, Repr

/-- The merged monthly record produced by `_mergeData` (six metric maps plus
the `_sources` map). -/
structure MergedRecord where
  outreach : Obj
  responses : Obj
  screens : Obj
  finals : Obj
  offers : Obj
  hires : Obj
  sources : SourceLabels
deriving DecidableEq, Repr

/-- `ashbyData?.screens || {}`. -/
def ashbyScreensOf : Option FunnelData → Obj
  | some a => a.screens
  | none => []

/-- `calendarScreenings || {}`. -/
def calScreensOf (c : Option Obj) : Obj := c.getD []

/-- `SyncOrchestrator._mergeData`: outreach/responses from Gem when present
else manual; screens as the per-role max of Ashby, calendar and manual;
finals/offers/hires wholesale from Ashby when present else manual. -/
def mergeData (gemData : Option GemData) (ashbyData : Option FunnelData)
    (calendarScreenings : Option Obj) (manualData : MonthlyData) : MergedRecord :=
  let outreachPair : Obj × String :=
    match gemData with
    | some g => (g.outreach, "gem")
    | none => (manualData.outreach, "manual")
  let responsesPair : Obj × String :=
    match gemData with
    | some g => (g.responses, "gem")
    | none => (manualData.responses, "manual")
  let ashbyScreens := ashbyScreensOf ashbyData
  let calScreens := calScreensOf calendarScreenings
  let allScreenRoles :=
    dedupFirst (objKeys ashbyScreens ++ objKeys calScreens ++ objKeys manualData.screens)
  let screens : Obj := allScreenRoles.map (fun r =>
    (r, max (max (objGetD ashbyScreens r) (objGetD calScreens r)) (objGetD manualData.screens r)))
  let screenSources : List String := allScreenRoles.foldl (fun acc r =>
    let acc1 := if objGetD ashbyScreens r > 0 then acc ++ ["ashby"] else acc
    if objGetD calScreens r > 0 then acc1 ++ ["calendar"] else acc1) []
  let screensLabel :=
    let joined := String.intercalate "+" (dedupFirst screenSources)
    if joined = "" then "manual" else joined
  let finalsPair : Obj × String :=
    match ashbyData with
    | some a => (a.finals, "ashby")
    | none => (manualData.finals, "manual")
  let offersPair : Obj × String :=
    match ashbyData with
    | some a => (a.offers, "ashby")
    | none => (manualData.offers, "manual")
  let hiresPair : Obj × String :=
    match ashbyData with
    | some a => (a.hires, "ashby")
    | none => (manualData.hires, "manual")
  { outreach := outreachPair.1
    responses := responsesPair.1
    screens := screens
    finals := finalsPair.1
    offers := offersPair.1
    hires := hiresPair.1
    sources :=
      { outreach := outreachPair.2
        responses := responsesPair.2
        screens := screensLabel
        finals := finalsPair.2
        offers := offersPair.2
        hires := hiresPair.2 } }

/-- Result of one `_syncGem` call: the returned data, the updated status
fields, whether the provider adapter was actually called, and the cache entry
written (if any). -/
structure GemSyncResult where
  data : Option GemData
  lastSync : Option ℤ
  error : Option String
  fetched : Bool
  cacheWritten : Option (CacheEntry GemData)
deriving DecidableEq, Repr

/-- The non-cached path of `_syncGem`: mapping check, then fetch, cache write
and status update (the adapter itself cannot throw — all its fetch failures
are caught inside `GemService` and degrade to empty lists). -/
def syncGemFetch (nowMs : ℤ) (projectMapping : List (String × String))
    (fetchResult : GemData) (lastSyncBefore : Option ℤ)
    (_errorBefore : Option String) : GemSyncResult :=
  if projectMapping = [] then
    { data := none, lastSync := lastSyncBefore,
      error := some "No projects mapped to roles", fetched := false, cacheWritten := none }
  else
    { data := some fetchResult, lastSync := some nowMs, error := none,
      fetched := true, cacheWritten := some ⟨nowMs, fetchResult⟩ }

/-- `SyncOrchestrator._syncGem`: return the cached payload when the entry is
younger than the TTL, otherwise run the fetch path.  `errorBefore` is ignored
by the code only on the fetch path. -/
def syncGem (cache : Option (CacheEntry GemData)) (nowMs : ℤ)
    (projectMapping : List (String × String)) (fetchResult : GemData)
    (lastSyncBefore : Option ℤ) (errorBefore : Option String) : GemSyncResult :=
  match cache with
  | some c =>
    if nowMs - c.lastSync < CACHE_TTL_MS then
      { data := some c.data, lastSync := some c.lastSync, error := errorBefore,
        fetched := false, cacheWritten := none }
    else syncGemFetch nowMs projectMapping fetchResult lastSyncBefore errorBefore
  | none => syncGemFetch nowMs projectMapping fetchResult lastSyncBefore errorBefore

/-- Result of one `_syncAshby` call. -/
structure AshbySyncResult where
  data : Option FunnelData
  lastSync : Option ℤ
  error : Option String
  fetched : Bool
  cacheWritten : Option (CacheEntry FunnelData)
deriving DecidableEq, Repr

/-- `AshbyService.getApplications`: the catch degrades any error — auth
errors included — to an empty list. -/
def getApplicationsRes (fetch : Except String (List AshbyApp)) : List AshbyApp :=
  match fetch with
  | .ok l => l
  | .error _ => []

/-- `AshbyService.getOffers`: same catch-to-empty behavior. -/
def getOffersRes (fetch : Except String (List AshbyOffer)) : List AshbyOffer :=
  match fetch with
  | .ok l => l
  | .error _ => []

/-- The non-cached path of `_syncAshby`. -/
def syncAshbyFetch (nowMs monthStart monthEnd : ℤ)
    (jobMapping stageClassification : List (String × String))
    (fetchApps : Except String (List AshbyApp))
    (fetchOffers : Except String (List AshbyOffer))
    (lastSyncBefore : Option ℤ) (_errorBefore : Option String) : AshbySyncResult :=
  if jobMapping = [] then
    { data := none, lastSync := lastSyncBefore,
      error := some "No jobs mapped to roles", fetched := false, cacheWritten := none }
  else
    let d := getMonthlyFunnelData monthStart monthEnd jobMapping stageClassification
      (getApplicationsRes fetchApps) (getOffersRes fetchOffers)
    { data := some d, lastSync := some nowMs, error := none,
      fetched := true, cacheWritten := some ⟨nowMs, d⟩ }

/-- `SyncOrchestrator._syncAshby`. -/
def syncAshby (cache : Option (CacheEntry FunnelData)) (nowMs monthStart monthEnd : ℤ)
    (jobMapping stageClassification : List (String × String))
    (fetchApps : Except String (List AshbyApp))
    (fetchOffers : Except String (List AshbyOffer))
    (lastSyncBefore : Option ℤ) (errorBefore : Option String) : AshbySyncResult :=
  match cache with
  | some c =>
    if nowMs - c.lastSync < CACHE_TTL_MS then
      { data := some c.data, lastSync := some c.lastSync, error := errorBefore,
        fetched := false, cacheWritten := none }
    else syncAshbyFetch nowMs monthStart monthEnd jobMapping stageClassification
      fetchApps fetchOffers lastSyncBefore errorBefore
  | none => syncAshbyFetch nowMs monthStart monthEnd jobMapping stageClassification
      fetchApps fetchOffers lastSyncBefore errorBefore

/-- The environment a `syncAll` call runs in: configured services, storage
contents, the provider-side I/O outcomes and the prior status fields. -/
structure SyncEnv where
  gemConfigured : Bool
  ashbyConfigured : Bool
  existingData : Option MonthlyData
  gemCache : Option (CacheEntry GemData)
  ashbyCache : Option (CacheEntry FunnelData)
  gemProjectMapping : List (String × String)
  ashbyJobMapping : List (String × String)
  ashbyStageClassification : List (String × String)
  candidatesOf : String → List String
  eventsOf : String → List GemEvent
  fetchApplications : Except String (List AshbyApp)
  fetchOffers : Except String (List AshbyOffer)
  nowMs : ℤ
  gemLastSync0 : Option ℤ
  gemError0 : Option String
  ashbyLastSync0 : Option ℤ
  ashbyError0 : Option String

/-- One provider's status fields after a sync. -/
structure ProviderStatus where
  lastSync : Option ℤ
  error : Option String
deriving DecidableEq, Repr

/-- The observable outcome of `syncAll`: the returned record, the record
written to storage, and both providers' status fields. -/
structure SyncOutcome where
  merged : MergedRecord
  persisted : MergedRecord
  gem : ProviderStatus
  ashby : ProviderStatus
deriving DecidableEq, Repr

/-- The `_syncGem` call made by `syncAll` (absent when Gem is not
configured). -/
def gemSyncOf (env : SyncEnv) (monthStart monthEnd : ℤ) : Option GemSyncResult :=
  if env.gemConfigured then
    some (syncGem env.gemCache env.nowMs env.gemProjectMapping
      (getMonthlyOutreachData monthStart monthEnd env.gemProjectMapping
        env.candidatesOf env.eventsOf)
      env.gemLastSync0 env.gemError0)
  else none

/-- The `_syncAshby` call made by `syncAll` (absent when Ashby is not
configured). -/
def ashbySyncOf (env : SyncEnv) (monthStart monthEnd : ℤ) : Option AshbySyncResult :=
  if env.ashbyConfigured then
    some (syncAshby env.ashbyCache env.nowMs monthStart monthEnd
      env.ashbyJobMapping env.ashbyStageClassification
      env.fetchApplications env.fetchOffers
      env.ashbyLastSync0 env.ashbyError0)
  else none

/-- `SyncOrchestrator.syncAll`: load the prior record, run the two provider
syncs, merge all sources and persist the merged record. -/
def syncAll (env : SyncEnv) (monthStart monthEnd : ℤ)
    (calendarScreenings : Option Obj) : SyncOutcome :=
  let existing := env.existingData.getD emptyMonthly
  let gemRes := gemSyncOf env monthStart monthEnd
  let ashbyRes := ashbySyncOf env monthStart monthEnd
  let gemData : Option GemData :=
    match gemRes with
    | some r => r.data
    | none => none
  let ashbyData : Option FunnelData :=
    match ashbyRes with
    | some r => r.data
    | none => none
  let merged := mergeData gemData ashbyData calendarScreenings existing
  { merged := merged
    persisted := merged
    gem :=
      { lastSync :=
          match gemRes with
          | some r => r.lastSync
          | none => env.gemLastSync0
        error :=
          match gemRes with
          | some r => r.error
          | none => env.gemError0 }
    ashby :=
      { lastSync :=
          match ashbyRes with
          | some r => r.lastSync
          | none => env.ashbyLastSync0
        error :=
          match ashbyRes with
          | some r => r.error
          | none => env.ashbyError0 } }

/-- A concrete environment in which the Ashby HTTP fetches fail with an auth
error while Gem succeeds with one in-range outreach event. -/
def authFailEnv : SyncEnv :=
  { gemConfigured := true
    ashbyConfigured := true
    existingData := none
    gemCache := none
    ashbyCache := none
    gemProjectMapping := [("p1", "eng")]
    ashbyJobMapping := [("j1", "eng")]
    ashbyStageClassification := [("s1", "screen")]
    candidatesOf := fun _ => ["c1"]
    eventsOf := fun _ => [{ type := "inmail_sent", event_type := "", created_at := 5 }]
    fetchApplications := .error "Ashby API auth error: 401"
    fetchOffers := .error "Ashby API auth error: 401"
    nowMs := 0
    gemLastSync0 := none
    gemError0 := none
    ashbyLastSync0 := none
    ashbyError0 := none }

/-! ### Rate-limited HTTP clients (AshbyService._post, GemService._get) -/

/-- What one HTTP attempt does: a 2xx response with a JSON payload
(abstracted as a number), a non-2xx status (with the parsed `Retry-After`
header for 429), a 30-second timeout abort, or a transport failure. -/
inductive PostOutcome where
  | ok (payload : Nat)
  | httpStatus (code : Nat) (retryAfter : Option Nat)
  | abortTimeout
  | netError
deriving DecidableEq, Repr

/-- The errors `AshbyService._post` can throw. -/
inductive PostError where
  | authError (code : Nat)
  | apiError (code : Nat)
  | timeoutError
  | abortRaw
  | netRaw
deriving DecidableEq, Repr

/-- What a `_post` call produces: a JSON value, a thrown error, or
`undefined` (falling off the end of the attempt loop). -/
inductive PostResult where
  | value (payload : Nat)
  | thrown (e : PostError)
  | undef
deriving DecidableEq, Repr

/-- `parseInt(headers.get('Retry-After')) || d` — a missing header parses to
NaN and a literal "0" is falsy, so both fall back to the default. -/
def retryAfterOr (d : Nat) : Option Nat → Nat
  | none => d
  | some n => if n = 0 then d else n

/-- The retry loop of `AshbyService._post` (the pre-loop rate-limit wait is
outside the loop and not modelled).  `attemptsLeft` counts the remaining loop
iterations (3 at the start; `attempt === 2` is `attemptsLeft = 1`); the
second component accumulates the milliseconds slept between attempts. -/
def ashbyPostLoop : List PostOutcome → Nat → Nat → PostResult × Nat
  | _, 0, acc => (.undef, acc)
  | [], _ + 1, acc => (.undef, acc)
  | o :: rest, n + 1, acc =>
    match o with
    | .ok v => (.value v, acc)
    | .httpStatus code ra =>
      if code = 429 then
        ashbyPostLoop rest n (acc + retryAfterOr 5 ra * 1000)
      else
        let e := if code = 401 ∨ code = 403 then PostError.authError code
          else PostError.apiError code
        if n = 0 then (.thrown e, acc)
        else ashbyPostLoop rest n (acc + 4100)
    | .abortTimeout =>
      if n = 0 then (.thrown .abortRaw, acc)
      else (.thrown .timeoutError, acc)
    | .netError =>
      if n = 0 then (.thrown .netRaw, acc)
      else ashbyPostLoop rest n (acc + 4100)

/-- `AshbyService._post` on a given sequence of per-attempt outcomes. -/
def ashbyPost (outcomes : List PostOutcome) : PostResult × Nat :=
  ashbyPostLoop outcomes 3 0

/-- The errors `GemService._get` can produce (timeouts and transport failures
propagate uncaught out of `_rawGet`). -/
inductive GetError where
  | apiError (code : Nat)
  | abortRaw
  | netRaw
  | maxRetries
deriving DecidableEq, Repr

/-- What a `_get` call produces. -/
inductive GetResult where
  | value (payload : Nat)
  | thrown (e : GetError)
deriving DecidableEq, Repr

/-- The retry loop of `GemService._get`: only 429 is retried (fallback delay
1 s); any other non-2xx status — 401/403 included — throws a generic API
error immediately, and timeouts / network errors propagate uncaught. -/
def gemGetLoop : List PostOutcome → Nat → Nat → GetResult × Nat
  | _, 0, acc => (.thrown .maxRetries, acc)
  | [], _ + 1, acc => (.thrown .maxRetries, acc)
  | o :: rest, n + 1, acc =>
    match o with
    | .ok v => (.value v, acc)
    | .httpStatus code ra =>
      if code = 429 then
        gemGetLoop rest n (acc + retryAfterOr 1 ra * 1000)
      else (.thrown (.apiError code), acc)
    | .abortTimeout => (.thrown .abortRaw, acc)
    | .netError => (.thrown .netRaw, acc)

/-- `GemService._get` on a given sequence of per-attempt outcomes. -/
def gemGet (outcomes : List PostOutcome) : GetResult × Nat :=
  gemGetLoop outcomes 3 0

/-! ### Theorems -/

theorem mem_dedupFirstAux (x : String) :
    ∀ (l seen : List String), x ∈ dedupFirstAux seen l ↔ (x ∈ l ∧ x ∉ seen) := by
  intro l
  induction l with
  | nil => simp [dedupFirstAux]
  | cons hd tl ih =>
    intro seen
    by_cases h : hd ∈ seen
    · rw [dedupFirstAux, if_pos h, ih]
      constructor
      · rintro ⟨hx, hs⟩
        exact ⟨List.mem_cons_of_mem _ hx, hs⟩
      · rintro ⟨hor, hs⟩
        rcases List.mem_cons.mp hor with rfl | hx
        · exact absurd h hs
        · exact ⟨hx, hs⟩
    · rw [dedupFirstAux, if_neg h]
      simp only [List.mem_cons, ih, List.mem_cons, not_or]
      constructor
      · rintro (rfl | ⟨hx, hne, hs⟩)
        · exact ⟨Or.inl rfl, h⟩
        · exact ⟨Or.inr hx, hs⟩
      · rintro ⟨hor, hs⟩
        by_cases hxh : x = hd
        · exact Or.inl hxh
        · rcases hor with rfl | hx
          · exact absurd rfl hxh
          · exact Or.inr ⟨hx, hxh, hs⟩

theorem mem_dedupFirst (x : String) (l : List String) :
    x ∈ dedupFirst l ↔ x ∈ l := by
  simp [dedupFirst, mem_dedupFirstAux]

theorem objGet_set_self (m : Obj) (k : String) (v : Nat) :
    objGet (objSet m k v) k = some v := by
  induction m with
  | nil => simp [objSet, objGet]
  | cons hd tl ih =>
    obtain ⟨k', v'⟩ := hd
    by_cases h : k' = k
    · simp [objSet, objGet, h]
    · simp [objSet, objGet, h, ih]

theorem objGet_set_ne (m : Obj) (k k' : String) (v : Nat) (h : k' ≠ k) :
    objGet (objSet m k' v) k = objGet m k := by
  induction m with
  | nil => simp [objSet, objGet, h]
  | cons hd tl ih =>
    obtain ⟨k0, v0⟩ := hd
    by_cases h0 : k0 = k'
    · simp [objSet, objGet, h0, h, Ne.symm h]
    · by_cases h1 : k0 = k
      · simp [objSet, objGet, h0, h1, Ne.symm h]
      · simp [objSet, objGet, h0, h1, ih]

theorem objKeys_set_mem (m : Obj) (k : String) (v : Nat) (h : k ∈ objKeys m) :
    objKeys (objSet m k v) = objKeys m := by
  induction m with
  | nil => simp [objKeys] at h
  | cons hd tl ih =>
    obtain ⟨k0, v0⟩ := hd
    by_cases h0 : k0 = k
    · simp [objSet, objKeys, h0]
    · have hmem : k ∈ objKeys tl := by
        simp only [objKeys, List.map_cons, List.mem_cons] at h
        rcases h with h | h
        · exact absurd h.symm h0
        · exact h
      simp only [objSet, if_neg h0, objKeys, List.map_cons, List.cons.injEq]
      exact ⟨trivial, ih hmem⟩

theorem objSet_eq_self (m : Obj) (k : String) (v : Nat)
    (h : objGet m k = some v) : objSet m k v = m := by
  induction m with
  | nil => simp [objGet] at h
  | cons hd tl ih =>
    obtain ⟨k0, v0⟩ := hd
    by_cases h0 : k0 = k
    · subst h0
      have h' : v0 = v := by simpa [objGet] using h
      simp [objSet, ← h']
    · simp only [objGet, if_neg h0] at h
      simp [objSet, h0, ih h]

theorem objGet_mem_keys (m : Obj) (k : String) (h : k ∈ objKeys m) :
    ∃ v, objGet m k = some v := by
  induction m with
  | nil => simp [objKeys] at h
  | cons hd tl ih =>
    obtain ⟨k0, v0⟩ := hd
    by_cases h0 : k0 = k
    · exact ⟨v0, by simp [objGet, h0]⟩
    · have hmem : k ∈ objKeys tl := by
        simp only [objKeys, List.map_cons, List.mem_cons] at h
        rcases h with h | h
        · exact absurd h.symm h0
        · exact h
      obtain ⟨v', hv'⟩ := ih hmem
      exact ⟨v', by simp [objGet, h0, hv']⟩

theorem objGet_seed (l : List String) (f : String → Nat) (k : String) :
    objGet (l.map (fun r => (r, f r))) k = if k ∈ l then some (f k) else none := by
  induction l with
  | nil => simp [objGet]
  | cons hd tl ih =>
    by_cases h : hd = k
    · subst h; simp [objGet, ih]
    · have hk : ¬ (k = hd) := fun e => h e.symm
      simp only [List.map_cons, objGet, if_neg h, ih, List.mem_cons]
      by_cases h2 : k ∈ tl
      · simp [h2, hk]
      · simp [h2, hk]

theorem objKeys_seed (l : List String) (f : String → Nat) :
    objKeys (l.map (fun r => (r, f r))) = l := by
  induction l with
  | nil => rfl
  | cons hd tl ih =>
    simp only [List.map_cons, objKeys, List.cons.injEq]
    exact ⟨trivial, ih⟩

/-- A fold preserves any invariant its step preserves. -/
theorem foldl_invariant {α β : Type} (P : α → Prop) (f : α → β → α)
    (step : ∀ a b, P a → P (f a b)) :
    ∀ (l : List β) (a : α), P a → P (l.foldl f a)
  | [], _, h => h
  | b :: l, a, h => foldl_invariant P f step l (f a b) (step a b h)

/-- Dividing a non-negative integer by a rate in `(0, 1]` and rounding up can
only grow it, and keeps it non-negative. -/
theorem ceilDiv_ge (x : ℤ) (r : ℚ) (hx : 0 ≤ x) (hr0 : 0 < r) (hr1 : r ≤ 1) :
    x ≤ ceilDiv x r ∧ 0 ≤ ceilDiv x r := by
  have hxq : (0 : ℚ) ≤ (x : ℚ) := by exact_mod_cast hx
  have hdiv : (x : ℚ) ≤ (x : ℚ) / r := by
    rw [le_div_iff₀ hr0]
    calc (x : ℚ) * r ≤ (x : ℚ) * 1 := by
          exact mul_le_mul_of_nonneg_left hr1 hxq
      _ = (x : ℚ) := mul_one _
  have hle : (x : ℚ) ≤ (⌈(x : ℚ) / r⌉ : ℚ) := le_trans hdiv (Int.le_ceil _)
  have hxle : x ≤ ceilDiv x r := by
    unfold ceilDiv
    exact_mod_cast hle
  exact ⟨hxle, le_trans hx hxle⟩

/-- Evaluation of the funnel chain at hireTarget = 1 with the default rates. -/
theorem funnel_one_default_eval :
    calculateRequiredOutreach 1 DEFAULT_RATES =
      { hires := 1, offers := 2, finals := 4, screens := 16, interested := 20,
        responses := 34, outreach := 227 } := by
  have h1 : ceilDiv 1 (0.80 : ℚ) = 2 := by
    unfold ceilDiv; rw [Int.ceil_eq_iff]; norm_num
  have h2 : ceilDiv 2 (0.50 : ℚ) = 4 := by
    unfold ceilDiv; rw [Int.ceil_eq_iff]; norm_num
  have h3 : ceilDiv 4 (0.25 : ℚ) = 16 := by
    unfold ceilDiv; rw [Int.ceil_eq_iff]; norm_num
  have h4 : ceilDiv 16 (0.80 : ℚ) = 20 := by
    unfold ceilDiv; rw [Int.ceil_eq_iff]; norm_num
  have h5 : ceilDiv 20 (0.60 : ℚ) = 34 := by
    unfold ceilDiv; rw [Int.ceil_eq_iff]; norm_num
  have h6 : ceilDiv 34 (0.15 : ℚ) = 227 := by
    unfold ceilDiv; rw [Int.ceil_eq_iff]; norm_num
  simp [calculateRequiredOutreach, DEFAULT_RATES, h1, h2, h3, h4, h5, h6]

/-- C1 (counterexample): with hireTarget = 1 and the default rates,
`calculateRequiredOutreach` does NOT return the claimed values
offers = 3, finals = 6, screens = 24, interested = 30, responses = 50,
outreach = 334 (already the first step fails: ceil(1/0.8) = 2, not 3). -/
theorem c1_default_rates_counterexample :
    ¬ ((calculateRequiredOutreach 1 DEFAULT_RATES).offers = 3 ∧
       (calculateRequiredOutreach 1 DEFAULT_RATES).finals = 6 ∧
       (calculateRequiredOutreach 1 DEFAULT_RATES).screens = 24 ∧
       (calculateRequiredOutreach 1 DEFAULT_RATES).interested = 30 ∧
       (calculateRequiredOutreach 1 DEFAULT_RATES).responses = 50 ∧
       (calculateRequiredOutreach 1 DEFAULT_RATES).outreach = 334) := by
  rw [funnel_one_default_eval]
  decide

/-- C1 (amended): for hireTarget = 1 and the default conversion rates,
`calculateRequiredOutreach` returns offers = 2, finals = 4, screens = 16,
interested = 20, responses = 34 and outreach = 227. -/
theorem c1_default_rates_values :
    calculateRequiredOutreach 1 DEFAULT_RATES =
      { hires := 1, offers := 2, finals := 4, screens := 16, interested := 20,
        responses := 34, outreach := 227 } :=
  funnel_one_default_eval

/-- C3: for every non-negative integer hire target and all six rates in
`(0, 1]`, the funnel chain is monotone:
outreach ≥ responses ≥ interested ≥ screens ≥ finals ≥ offers ≥ hires. -/
theorem c3_funnel_monotone (hireTarget : ℤ) (rates : ConversionRates)
    (hh : 0 ≤ hireTarget)
    (hrr : 0 < rates.responseRate) (hrr1 : rates.responseRate ≤ 1)
    (hir : 0 < rates.interestRate) (hir1 : rates.interestRate ≤ 1)
    (hsr : 0 < rates.screenRate) (hsr1 : rates.screenRate ≤ 1)
    (hpt : 0 < rates.passThrough) (hpt1 : rates.passThrough ≤ 1)
    (hor : 0 < rates.offerRate) (hor1 : rates.offerRate ≤ 1)
    (har : 0 < rates.acceptRate) (har1 : rates.acceptRate ≤ 1) :
    (calculateRequiredOutreach hireTarget rates).hires ≤
        (calculateRequiredOutreach hireTarget rates).offers ∧
    (calculateRequiredOutreach hireTarget rates).offers ≤
        (calculateRequiredOutreach hireTarget rates).finals ∧
    (calculateRequiredOutreach hireTarget rates).finals ≤
        (calculateRequiredOutreach hireTarget rates).screens ∧
    (calculateRequiredOutreach hireTarget rates).screens ≤
        (calculateRequiredOutreach hireTarget rates).interested ∧
    (calculateRequiredOutreach hireTarget rates).interested ≤
        (calculateRequiredOutreach hireTarget rates).responses ∧
    (calculateRequiredOutreach hireTarget rates).responses ≤
        (calculateRequiredOutreach hireTarget rates).outreach := by
  obtain ⟨ho, ho0⟩ := ceilDiv_ge hireTarget rates.acceptRate hh har har1
  obtain ⟨hf, hf0⟩ := ceilDiv_ge _ rates.offerRate ho0 hor hor1
  obtain ⟨hs, hs0⟩ := ceilDiv_ge _ rates.passThrough hf0 hpt hpt1
  obtain ⟨hi, hi0⟩ := ceilDiv_ge _ rates.screenRate hs0 hsr hsr1
  obtain ⟨hre, hre0⟩ := ceilDiv_ge _ rates.interestRate hi0 hir hir1
  obtain ⟨hou, hou0⟩ := ceilDiv_ge _ rates.responseRate hre0 hrr hrr1
  exact ⟨ho, hf, hs, hi, hre, hou⟩

/-- Witness for C3 at hireTarget = 1 with the default rates. -/
theorem c3_funnel_monotone_witness :
    (0 : ℤ) ≤ 1 ∧
    ((calculateRequiredOutreach 1 DEFAULT_RATES).hires ≤
        (calculateRequiredOutreach 1 DEFAULT_RATES).offers ∧
     (calculateRequiredOutreach 1 DEFAULT_RATES).offers ≤
        (calculateRequiredOutreach 1 DEFAULT_RATES).finals ∧
     (calculateRequiredOutreach 1 DEFAULT_RATES).finals ≤
        (calculateRequiredOutreach 1 DEFAULT_RATES).screens ∧
     (calculateRequiredOutreach 1 DEFAULT_RATES).screens ≤
        (calculateRequiredOutreach 1 DEFAULT_RATES).interested ∧
     (calculateRequiredOutreach 1 DEFAULT_RATES).interested ≤
        (calculateRequiredOutreach 1 DEFAULT_RATES).responses ∧
     (calculateRequiredOutreach 1 DEFAULT_RATES).responses ≤
        (calculateRequiredOutreach 1 DEFAULT_RATES).outreach) :=
  ⟨by norm_num,
   c3_funnel_monotone 1 DEFAULT_RATES (by norm_num)
     (by norm_num [DEFAULT_RATES]) (by norm_num [DEFAULT_RATES])
     (by norm_num [DEFAULT_RATES]) (by norm_num [DEFAULT_RATES])
     (by norm_num [DEFAULT_RATES]) (by norm_num [DEFAULT_RATES])
     (by norm_num [DEFAULT_RATES]) (by norm_num [DEFAULT_RATES])
     (by norm_num [DEFAULT_RATES]) (by norm_num [DEFAULT_RATES])
     (by norm_num [DEFAULT_RATES]) (by norm_num [DEFAULT_RATES])⟩

/-- A fold over a list preserves an invariant whose step may use membership of
the element in the list. -/
theorem foldl_invariant_mem {α β : Type} (P : α → Prop) (f : α → β → α) :
    ∀ (l : List β), (∀ a b, b ∈ l → P a → P (f a b)) →
      ∀ (a : α), P a → P (l.foldl f a)
  | [], _, _, h => h
  | b :: l, step, a, h =>
    foldl_invariant_mem P f l
      (fun a' b' hb' => step a' b' (List.mem_cons_of_mem _ hb'))
      (f a b) (step a b (List.mem_cons_self _ _) h)

/-- C2 (counterexample): an event whose type string is "email_replied" is NOT
classified as a response: the outreach vocabulary contains the substring
"email" and is tested first, so the event counts as outreach. -/
theorem c2_email_replied_counterexample :
    classifyEvent "email_replied" ≠ EventClass.response := by decide

/-- C2 (amended): "inmail_sent" classifies as outreach; "email_replied" also
classifies as outreach (it matches the outreach substring "email", which is
tested first, even though it is listed in the response vocabulary);
"scheduled" classifies as neither; a type matching the outreach vocabulary is
always classified outreach regardless of the response vocabulary, and a type
classified response never matched the outreach vocabulary, so no event
increments both counters. -/
theorem c2_event_classification :
    classifyEvent "inmail_sent" = EventClass.outreach ∧
    classifyEvent "email_replied" = EventClass.outreach ∧
    isResponseEvent (jsToLower "email_replied") = true ∧
    classifyEvent "scheduled" = EventClass.neither ∧
    (∀ t, isOutreachEvent (jsToLower t) = true → classifyEvent t = EventClass.outreach) ∧
    (∀ t, classifyEvent t = EventClass.response → isOutreachEvent (jsToLower t) = false) := by
  refine ⟨by decide, by decide, by decide, by decide, ?_, ?_⟩
  · intro t h
    simp [classifyEvent, h]
  · intro t h
    by_cases ho : isOutreachEvent (jsToLower t) = true
    · simp [classifyEvent, ho] at h
    · simpa using ho

/-- Witness for C2's universally quantified conjuncts at "phone_call". -/
theorem c2_event_classification_witness :
    isOutreachEvent (jsToLower "phone_call") = true ∧
    classifyEvent "phone_call" = EventClass.outreach :=
  ⟨by decide, c2_event_classification.2.2.2.2.1 "phone_call" (by decide)⟩

/-- One event iteration preserves `GemInv`, provided the current role is a
mapped, non-skipped role. -/
theorem gemEventStep_preserves (sd ed : ℤ) (roles : List String) (seed : Obj)
    (roleName : String) (hmem : roleName ∈ roles)
    (hne : roleName ≠ "") (hni : roleName ≠ "ignore")
    (acc : GemData) (ev : GemEvent) (hP : GemInv roles seed acc) :
    GemInv roles seed (gemEventStep sd ed roleName acc ev) := by
  obtain ⟨hk1, hk2, hz⟩ := hP
  have hner : ∀ r : String, r = "" ∨ r = "ignore" → roleName ≠ r := by
    rintro r (rfl | rfl)
    · exact hne
    · exact hni
  simp only [gemEventStep]
  split_ifs with hdate hout hresp
  · exact ⟨hk1, hk2, hz⟩
  · refine ⟨?_, hk2, ?_⟩
    · exact (objKeys_set_mem _ _ _ (hk1 ▸ hmem)).trans hk1
    · intro r hr
      rw [objGet_set_ne _ _ _ _ (hner r hr)]
      exact hz r hr
  · refine ⟨hk1, ?_, ?_⟩
    · exact (objKeys_set_mem _ _ _ (hk2 ▸ hmem)).trans hk2
    · intro r hr
      rw [objGet_set_ne _ _ _ _ (hner r hr)]
      exact ⟨(hz r hr).1, (hz r hr).2⟩
  · exact ⟨hk1, hk2, hz⟩

/-- `GemInv` holds of the final result of `getMonthlyOutreachData`, with the
seeded key list `dedupFirst (values of the mapping)`. -/
theorem gem_monthly_props (sd ed : ℤ) (m : List (String × String))
    (cands : String → List String) (evs : String → List GemEvent) :
    GemInv (dedupFirst (m.map Prod.snd))
      ((dedupFirst (m.map Prod.snd)).map (fun x => (x, 0)))
      (getMonthlyOutreachData sd ed m cands evs) := by
  unfold getMonthlyOutreachData
  apply foldl_invariant_mem
    (GemInv (dedupFirst (m.map Prod.snd))
      ((dedupFirst (m.map Prod.snd)).map (fun x => (x, 0))))
  · intro acc entry hentry hP
    dsimp only
    split_ifs with hskip
    · exact hP
    · push_neg at hskip
      have hmem : entry.2 ∈ dedupFirst (m.map Prod.snd) :=
        (mem_dedupFirst _ _).mpr (List.mem_map_of_mem Prod.snd hentry)
      refine foldl_invariant _ _ (fun a cid ha => ?_) _ _ hP
      refine foldl_invariant _ _ (fun a' ev ha' => ?_) _ _ ha
      exact gemEventStep_preserves sd ed _ _ _ hmem hskip.1 hskip.2 a' ev ha'
  · exact ⟨objKeys_seed _ _, objKeys_seed _ _, fun r _ => ⟨rfl, rfl⟩⟩

/-- C9 (counterexample): a mapping whose only entry maps project "p1" to the
sentinel "ignore" still yields "ignore" as a (zero-seeded) key of the output
mappings — skipped entries are not filtered out of the seeding step. -/
theorem c9_ignore_key_counterexample :
    objKeys (getMonthlyOutreachData 0 10 [("p1", "ignore")]
      (fun _ => []) (fun _ => [])).outreach = ["ignore"] := by decide

/-- C9 (amended): the outreach adapter's output consists of exactly two
mappings whose common key set is the set of ALL distinct values of the
project-to-role mapping — including entries mapped to "" or to the sentinel
"ignore", which are seeded with zero but skipped by the counting loop, so
their counters are never incremented past the seeded zero. -/
theorem c9_gem_output_keys (sd ed : ℤ) (m : List (String × String))
    (cands : String → List String) (evs : String → List GemEvent) :
    objKeys (getMonthlyOutreachData sd ed m cands evs).outreach
        = dedupFirst (m.map Prod.snd) ∧
    objKeys (getMonthlyOutreachData sd ed m cands evs).responses
        = dedupFirst (m.map Prod.snd) ∧
    ∀ r, r ∈ m.map Prod.snd → r = "" ∨ r = "ignore" →
      objGet (getMonthlyOutreachData sd ed m cands evs).outreach r = some 0 ∧
      objGet (getMonthlyOutreachData sd ed m cands evs).responses r = some 0 := by
  obtain ⟨h1, h2, h3⟩ := gem_monthly_props sd ed m cands evs
  refine ⟨h1, h2, fun r hmem hr => ?_⟩
  have hmem' : r ∈ dedupFirst (m.map Prod.snd) := (mem_dedupFirst _ _).mpr hmem
  have hseed : objGet ((dedupFirst (m.map Prod.snd)).map (fun x => (x, 0))) r = some 0 := by
    rw [objGet_seed]
    simp [hmem']
  exact ⟨((h3 r hr).1).trans hseed, ((h3 r hr).2).trans hseed⟩

/-- Witness for C9 on a two-entry mapping with an "ignore" project. -/
theorem c9_gem_output_keys_witness :
    objKeys (getMonthlyOutreachData 0 10 [("p1", "eng"), ("p2", "ignore")]
        (fun _ => []) (fun _ => [])).outreach
      = dedupFirst ([("p1", "eng"), ("p2", "ignore")].map Prod.snd) ∧
    objGet (getMonthlyOutreachData 0 10 [("p1", "eng"), ("p2", "ignore")]
        (fun _ => []) (fun _ => [])).outreach "ignore" = some 0 :=
  ⟨(c9_gem_output_keys 0 10 _ _ _).1,
   ((c9_gem_output_keys 0 10 [("p1", "eng"), ("p2", "ignore")]
      (fun _ => []) (fun _ => [])).2.2 "ignore" (by decide) (by decide)).1⟩

/-- A fold by a function that fixes every point satisfying `P` is the
identity on such points. -/
theorem foldl_fixed {α β : Type} (P : α → Prop) (f : α → β → α)
    (hfix : ∀ a b, P a → f a b = a) :
    ∀ (l : List β) (a : α), P a → l.foldl f a = a
  | [], _, _ => rfl
  | b :: l, a, h => by
    rw [List.foldl_cons, hfix a b h]
    exact foldl_fixed P f hfix l a h

theorem smGet_mem (m : List (String × String)) (k v : String)
    (h : smGet m k = some v) : v ∈ m.map Prod.snd := by
  induction m with
  | nil => simp [smGet] at h
  | cons hd tl ih =>
    obtain ⟨k0, v0⟩ := hd
    by_cases h0 : k0 = k
    · simp only [smGet, if_pos h0, Option.some.injEq] at h
      simp [h]
    · simp only [smGet, if_neg h0] at h
      simp [ih h]

/-- A role produced by a successful, non-skipped job lookup is a seeded
role. -/
theorem role_mem_mapped (jm : List (String × String)) (jobId roleName : String)
    (hrole : smGet jm jobId = some roleName)
    (hne : roleName ≠ "") (hni : roleName ≠ "ignore") :
    roleName ∈ mappedRolesOf jm := by
  unfold mappedRolesOf
  rw [mem_dedupFirst]
  exact List.mem_filter.mpr ⟨smGet_mem jm jobId roleName hrole, by simp [hne, hni]⟩

theorem ashbyInv_screens (roles : List String) (acc : FunnelData)
    (h : AshbyInv roles acc) (r : String) (hr : r ∈ roles) (v : Nat) :
    AshbyInv roles { acc with screens := objSet acc.screens r v } :=
  ⟨(objKeys_set_mem _ _ _ (h.1 ▸ hr)).trans h.1, h.2.1, h.2.2.1, h.2.2.2⟩

theorem ashbyInv_finals (roles : List String) (acc : FunnelData)
    (h : AshbyInv roles acc) (r : String) (hr : r ∈ roles) (v : Nat) :
    AshbyInv roles { acc with finals := objSet acc.finals r v } :=
  ⟨h.1, (objKeys_set_mem _ _ _ (h.2.1 ▸ hr)).trans h.2.1, h.2.2.1, h.2.2.2⟩

theorem ashbyInv_offers (roles : List String) (acc : FunnelData)
    (h : AshbyInv roles acc) (r : String) (hr : r ∈ roles) (v : Nat) :
    AshbyInv roles { acc with offers := objSet acc.offers r v } :=
  ⟨h.1, h.2.1, (objKeys_set_mem _ _ _ (h.2.2.1 ▸ hr)).trans h.2.2.1, h.2.2.2⟩

theorem ashbyInv_hires (roles : List String) (acc : FunnelData)
    (h : AshbyInv roles acc) (r : String) (hr : r ∈ roles) (v : Nat) :
    AshbyInv roles { acc with hires := objSet acc.hires r v } :=
  ⟨h.1, h.2.1, h.2.2.1, (objKeys_set_mem _ _ _ (h.2.2.2 ▸ hr)).trans h.2.2.2⟩

theorem bumpBucket_inv (roles : List String) (roleName classification : String)
    (acc : FunnelData) (h : AshbyInv roles acc) (hr : roleName ∈ roles) :
    AshbyInv roles (bumpBucket roleName classification acc) := by
  unfold bumpBucket
  split_ifs
  · exact ashbyInv_screens roles acc h roleName hr _
  · exact ashbyInv_finals roles acc h roleName hr _
  · exact ashbyInv_offers roles acc h roleName hr _
  · exact ashbyInv_hires roles acc h roleName hr _
  · exact h

/-- The applications pass preserves the seeded key sets. -/
theorem stepApp_inv (jm sc : List (String × String)) (sd ed : ℤ)
    (acc : FunnelData) (app : AshbyApp)
    (h : AshbyInv (mappedRolesOf jm) acc) :
    AshbyInv (mappedRolesOf jm) (stepApp jm sc sd ed acc app) := by
  unfold stepApp
  by_cases hdate : app.updatedAt.getD app.createdAt < sd ∨
      app.updatedAt.getD app.createdAt > ed
  · rw [if_pos hdate]; exact h
  · rw [if_neg hdate]
    cases hrole : smGet jm app.jobId with
    | none => exact h
    | some roleName =>
      dsimp only
      by_cases hskip : roleName = "" ∨ roleName = "ignore"
      · rw [if_pos hskip]; exact h
      · rw [if_neg hskip]
        push_neg at hskip
        have hmem : roleName ∈ mappedRolesOf jm :=
          role_mem_mapped jm app.jobId roleName hrole hskip.1 hskip.2
        cases hcl : app.stageId.bind (fun sid => smGet sc sid) with
        | none => exact h
        | some classification =>
          dsimp only
          by_cases hcli : classification = "" ∨ classification = "ignore"
          · rw [if_pos hcli]; exact h
          · rw [if_neg hcli]
            have h1 : AshbyInv (mappedRolesOf jm)
                (bumpBucket roleName classification acc) :=
              bumpBucket_inv _ _ _ _ h hmem
            split_ifs with hst
            · exact ashbyInv_hires _ _ h1 roleName hmem _
            · exact h1

/-- On any record whose offers keys cover the seeded roles, one iteration of
the secondary offers pass is the identity. -/
theorem stepOffer_noop (jm : List (String × String)) (sd ed : ℤ)
    (acc : FunnelData) (offer : AshbyOffer)
    (h : AshbyInv (mappedRolesOf jm) acc) :
    stepOffer jm sd ed acc offer = acc := by
  unfold stepOffer
  by_cases hdate : offer.createdAt.getD offer.updatedAt < sd ∨
      offer.createdAt.getD offer.updatedAt > ed
  · rw [if_pos hdate]
  · rw [if_neg hdate]
    cases hrole : smGet jm offer.jobId with
    | none => rfl
    | some roleName =>
      dsimp only
      by_cases hskip : roleName = "" ∨ roleName = "ignore"
      · rw [if_pos hskip]
      · rw [if_neg hskip]
        push_neg at hskip
        have hmem : roleName ∈ mappedRolesOf jm :=
          role_mem_mapped jm offer.jobId roleName hrole hskip.1 hskip.2
        split_ifs with hstat
        · obtain ⟨v, hv⟩ := objGet_mem_keys acc.offers roleName (h.2.2.1 ▸ hmem)
          have hd : objGetD acc.offers roleName = v := by
            unfold objGetD; rw [hv]; rfl
          rw [hd, max_self, objSet_eq_self _ _ _ hv]
        · rfl

/-- C5: the secondary offers pass of `getMonthlyFunnelData` is a no-op — for
every date range, mapping, stage classification, application list and offers
list, the result (in particular its offers mapping) equals the result of the
applications pass alone (the reconciliation computes `max(current, current)`
on an already-seeded key and never changes anything). -/
theorem c5_offers_pass_noop (sd ed : ℤ) (jm sc : List (String × String))
    (apps : List AshbyApp) (offersList : List AshbyOffer) :
    getMonthlyFunnelData sd ed jm sc apps offersList =
      getMonthlyFunnelData sd ed jm sc apps [] := by
  unfold getMonthlyFunnelData
  dsimp only
  rw [List.foldl_nil]
  have hseed : AshbyInv (mappedRolesOf jm) (seedFunnel jm) :=
    ⟨objKeys_seed _ _, objKeys_seed _ _, objKeys_seed _ _, objKeys_seed _ _⟩
  have hafter : AshbyInv (mappedRolesOf jm)
      (apps.foldl (stepApp jm sc sd ed) (seedFunnel jm)) :=
    foldl_invariant _ _ (fun a b ha => stepApp_inv jm sc sd ed a b ha) apps _ hseed
  exact foldl_fixed (AshbyInv (mappedRolesOf jm)) _
    (fun a b ha => stepOffer_noop jm sd ed a b ha) offersList _ hafter

/-- An application whose stage classification is missing or "ignore" leaves
the accumulator untouched, whatever its status. -/
theorem stepApp_unclassified (jm sc : List (String × String)) (sd ed : ℤ)
    (acc : FunnelData) (app : AshbyApp)
    (h : app.stageId.bind (fun sid => smGet sc sid) = none ∨
         app.stageId.bind (fun sid => smGet sc sid) = some "ignore") :
    stepApp jm sc sd ed acc app = acc := by
  unfold stepApp
  by_cases hdate : app.updatedAt.getD app.createdAt < sd ∨
      app.updatedAt.getD app.createdAt > ed
  · rw [if_pos hdate]
  · rw [if_neg hdate]
    cases hrole : smGet jm app.jobId with
    | none => rfl
    | some roleName =>
      dsimp only
      by_cases hskip : roleName = "" ∨ roleName = "ignore"
      · rw [if_pos hskip]
      · rw [if_neg hskip]
        rcases h with h | h
        · rw [h]
        · rw [h]
          dsimp only
          rw [if_pos (Or.inr rfl)]

/-- C10: an application whose current stage has no entry in the
stage-classification mapping (or is classified "ignore") contributes nothing
to any bucket — including hires, even when its own status field is "hired":
removing such an application from the list leaves `getMonthlyFunnelData`
unchanged, so the status-based hire increment is unreachable for it. -/
theorem c10_unclassified_hired_noop (sd ed : ℤ)
    (jm sc : List (String × String)) (apps1 apps2 : List AshbyApp)
    (offersList : List AshbyOffer) (app : AshbyApp)
    (_hstatus : jsToLower app.status = "hired")
    (h : app.stageId.bind (fun sid => smGet sc sid) = none ∨
         app.stageId.bind (fun sid => smGet sc sid) = some "ignore") :
    getMonthlyFunnelData sd ed jm sc (apps1 ++ app :: apps2) offersList =
      getMonthlyFunnelData sd ed jm sc (apps1 ++ apps2) offersList := by
  unfold getMonthlyFunnelData
  dsimp only
  rw [List.foldl_append, List.foldl_append, List.foldl_cons,
    stepApp_unclassified jm sc sd ed _ app h]

/-- Witness for C10: a hired-status application at an unclassified stage is
dropped entirely. -/
theorem c10_unclassified_hired_noop_witness :
    getMonthlyFunnelData 0 10 [("j1", "eng")] []
        [{ updatedAt := none, createdAt := 5, jobId := "j1",
           stageId := some "s1", status := "Hired" }] [] =
      getMonthlyFunnelData 0 10 [("j1", "eng")] [] [] [] :=
  c10_unclassified_hired_noop 0 10 [("j1", "eng")] [] [] [] []
    { updatedAt := none, createdAt := 5, jobId := "j1",
      stageId := some "s1", status := "Hired" }
    (by decide) (by decide)

/-- C4: in the merge step, for every role appearing in any of the three
sources, the merged screens count is the maximum of the pipeline-adapter
count, the calendar count and the prior record's count (each 0 when absent) —
never their sum. -/
theorem c4_screens_merge_max (gemData : Option GemData)
    (ashbyData : Option FunnelData) (cal : Option Obj) (manual : MonthlyData)
    (r : String)
    (hr : r ∈ objKeys (ashbyScreensOf ashbyData) ++ objKeys (calScreensOf cal) ++
      objKeys manual.screens) :
    objGet (mergeData gemData ashbyData cal manual).screens r =
      some (max (max (objGetD (ashbyScreensOf ashbyData) r)
          (objGetD (calScreensOf cal) r))
        (objGetD manual.screens r)) := by
  unfold mergeData
  dsimp only
  rw [objGet_seed]
  rw [if_pos ((mem_dedupFirst _ _).mpr hr)]

/-- Witness for C4 at pipeline = 3, calendar = 5, prior = 2: the merged
screens count is 5 (the max), not 8 (the sum). -/
theorem c4_screens_merge_max_witness :
    objGet (mergeData none
      (some { screens := [("eng", 3)], finals := [], offers := [], hires := [] })
      (some [("eng", 5)])
      { emptyMonthly with screens := [("eng", 2)] }).screens "eng" = some 5 :=
  c4_screens_merge_max none
    (some { screens := [("eng", 3)], finals := [], offers := [], hires := [] })
    (some [("eng", 5)])
    { emptyMonthly with screens := [("eng", 2)] } "eng" (by decide)

/-- C8: a cached sync result strictly younger than the 1-hour TTL is returned
without calling the provider; a cached result whose age equals the TTL is
treated as expired and (with a non-empty mapping) triggers a fresh provider
call — for both the Gem and the Ashby cache. -/
theorem c8_cache_ttl_boundary (cg : CacheEntry GemData)
    (ca : CacheEntry FunnelData) (nowMs ms me : ℤ)
    (pm jm sc : List (String × String)) (g : GemData)
    (fa : Except String (List AshbyApp)) (fo : Except String (List AshbyOffer))
    (ls0 als0 : Option ℤ) (err0 aerr0 : Option String) :
    (nowMs - cg.lastSync < CACHE_TTL_MS →
      syncGem (some cg) nowMs pm g ls0 err0 =
        { data := some cg.data, lastSync := some cg.lastSync, error := err0,
          fetched := false, cacheWritten := none }) ∧
    (nowMs - cg.lastSync = CACHE_TTL_MS → pm ≠ [] →
      (syncGem (some cg) nowMs pm g ls0 err0).fetched = true) ∧
    (nowMs - ca.lastSync < CACHE_TTL_MS →
      syncAshby (some ca) nowMs ms me jm sc fa fo als0 aerr0 =
        { data := some ca.data, lastSync := some ca.lastSync, error := aerr0,
          fetched := false, cacheWritten := none }) ∧
    (nowMs - ca.lastSync = CACHE_TTL_MS → jm ≠ [] →
      (syncAshby (some ca) nowMs ms me jm sc fa fo als0 aerr0).fetched = true) := by
  refine ⟨fun h => ?_, fun h hpm => ?_, fun h => ?_, fun h hjm => ?_⟩
  · simp [syncGem, h]
  · have hnot : ¬ (nowMs - cg.lastSync < CACHE_TTL_MS) := by
      rw [h]; exact lt_irrefl _
    simp [syncGem, hnot, syncGemFetch, hpm]
  · simp [syncAshby, h]
  · have hnot : ¬ (nowMs - ca.lastSync < CACHE_TTL_MS) := by
      rw [h]; exact lt_irrefl _
    simp [syncAshby, hnot, syncAshbyFetch, hjm]

/-- Witness for C8 on both sides of the boundary (age 1 ms vs age exactly
the TTL). -/
theorem c8_cache_ttl_boundary_witness :
    (syncGem (some ⟨0, ⟨[], []⟩⟩) 1 [("p1", "eng")] ⟨[], []⟩ none none =
      { data := some ⟨[], []⟩, lastSync := some 0, error := none,
        fetched := false, cacheWritten := none }) ∧
    (syncGem (some ⟨0, ⟨[], []⟩⟩) CACHE_TTL_MS [("p1", "eng")] ⟨[], []⟩
        none none).fetched = true :=
  ⟨(c8_cache_ttl_boundary ⟨0, ⟨[], []⟩⟩ ⟨0, ⟨[], [], [], []⟩⟩ 1 0 10
      [("p1", "eng")] [] [] ⟨[], []⟩ (.ok []) (.ok []) none none none none).1
      (by decide),
   (c8_cache_ttl_boundary ⟨0, ⟨[], []⟩⟩ ⟨0, ⟨[], [], [], []⟩⟩ CACHE_TTL_MS 0 10
      [("p1", "eng")] [] [] ⟨[], []⟩ (.ok []) (.ok []) none none none none).2.1
      (by decide) (by decide)⟩

/-- C7 (counterexample): when the Ashby HTTP fetches fail with an auth error,
`syncAll` still merges and persists the Gem and calendar data, but the Ashby
SyncStatus error is left `none` — it does not reflect the failure, because
`getApplications` / `getOffers` swallow the error and degrade to `[]`. -/
theorem c7_auth_error_status_counterexample :
    (syncAll authFailEnv 0 10 (some [("eng", 2)])).ashby.error = none ∧
    (syncAll authFailEnv 0 10 (some [("eng", 2)])).merged.outreach = [("eng", 1)] ∧
    objGet (syncAll authFailEnv 0 10 (some [("eng", 2)])).merged.screens "eng"
      = some 2 := by decide

/-- C7 (amended): an auth failure in the pipeline provider's HTTP fetches is
swallowed at the per-fetch boundary, so `syncAll` completes: the other
provider's data and the calendar counts are merged into and persisted as the
returned record, with the pipeline provider contributing a zero-count funnel
(its seeded roles); but the failing provider's SyncStatus.error is left
`none` and its lastSync is refreshed as if the sync had succeeded. -/
theorem c7_auth_error_sync_proceeds (env : SyncEnv) (ms me : ℤ)
    (cal : Option Obj) (e e' : String)
    (hconf : env.ashbyConfigured = true)
    (hcache : env.ashbyCache = none)
    (hjm : env.ashbyJobMapping ≠ [])
    (hfa : env.fetchApplications = .error e)
    (hfo : env.fetchOffers = .error e') :
    (syncAll env ms me cal).ashby.error = none ∧
    (syncAll env ms me cal).ashby.lastSync = some env.nowMs ∧
    (syncAll env ms me cal).merged =
      mergeData
        (match gemSyncOf env ms me with
          | some r => r.data
          | none => none)
        (some (seedFunnel env.ashbyJobMapping)) cal
        (env.existingData.getD emptyMonthly) ∧
    (syncAll env ms me cal).persisted = (syncAll env ms me cal).merged := by
  have hget : getMonthlyFunnelData ms me env.ashbyJobMapping
      env.ashbyStageClassification [] [] = seedFunnel env.ashbyJobMapping := rfl
  have hashby : ashbySyncOf env ms me =
      some { data := some (seedFunnel env.ashbyJobMapping),
             lastSync := some env.nowMs, error := none, fetched := true,
             cacheWritten := some ⟨env.nowMs, seedFunnel env.ashbyJobMapping⟩ } := by
    simp [ashbySyncOf, syncAshby, syncAshbyFetch, hconf, hcache, hfa, hfo, hjm,
      getApplicationsRes, getOffersRes, hget]
  refine ⟨?_, ?_, ?_, rfl⟩
  · simp [syncAll, hashby]
  · simp [syncAll, hashby]
  · simp [syncAll, hashby]

/-- Witness for C7 in the concrete auth-failure environment. -/
theorem c7_auth_error_sync_proceeds_witness :
    (syncAll authFailEnv 0 10 (some [("eng", 2)])).ashby.error = none ∧
    (syncAll authFailEnv 0 10 (some [("eng", 2)])).ashby.lastSync
      = some authFailEnv.nowMs ∧
    (syncAll authFailEnv 0 10 (some [("eng", 2)])).merged =
      mergeData
        (match gemSyncOf authFailEnv 0 10 with
          | some r => r.data
          | none => none)
        (some (seedFunnel authFailEnv.ashbyJobMapping)) (some [("eng", 2)])
        (authFailEnv.existingData.getD emptyMonthly) ∧
    (syncAll authFailEnv 0 10 (some [("eng", 2)])).persisted
      = (syncAll authFailEnv 0 10 (some [("eng", 2)])).merged :=
  c7_auth_error_sync_proceeds authFailEnv 0 10 (some [("eng", 2)])
    "Ashby API auth error: 401" "Ashby API auth error: 401"
    rfl rfl (by decide) rfl rfl

/-- C6 (counterexample): the Ashby client does NOT surface auth errors
immediately — a 401 on the first attempt is swallowed and retried (here the
second attempt succeeds); a timed-out attempt is NOT retried (surfaced
immediately as a timeout error); and three rate-limited attempts make the
call return `undefined` instead of failing with a provider error. -/
theorem c6_retry_counterexample :
    ashbyPost [.httpStatus 401 none, .ok 7, .ok 7] = (.value 7, 4100) ∧
    ashbyPost [.abortTimeout, .ok 7, .ok 7] = (.thrown .timeoutError, 0) ∧
    ashbyPost [.httpStatus 429 (some 2), .httpStatus 429 (some 2),
      .httpStatus 429 (some 2)] = (.undef, 6000) := by decide

/-- C6 (amended): the Ashby client makes at most 3 attempts; a 401/403
response is caught and retried after the fixed 4.1 s backoff, surfacing as an
auth error only when it happens on the third attempt; 429 is retried honoring
`Retry-After` (fallback 5 s) and three rate-limited attempts return
`undefined` rather than raising; a timeout is surfaced immediately without
retrying; network errors are retried with the fixed backoff and the raw error
is rethrown on the third attempt; other non-2xx statuses are retried and
surface as a provider error on the third attempt.  The Gem client retries
only on 429 (fallback 1 s, "max retries exceeded" after three), surfaces
401/403 immediately as a generic API error, and does not retry timeouts or
network errors. -/
theorem c6_retry_behavior :
    ashbyPost [.httpStatus 401 none, .ok 7, .ok 9] = (.value 7, 4100) ∧
    ashbyPost [.httpStatus 401 none, .httpStatus 403 none, .httpStatus 401 none]
      = (.thrown (.authError 401), 8200) ∧
    ashbyPost [.httpStatus 429 (some 2), .ok 5, .ok 5] = (.value 5, 2000) ∧
    ashbyPost [.httpStatus 429 none, .ok 5, .ok 5] = (.value 5, 5000) ∧
    ashbyPost [.httpStatus 429 none, .httpStatus 429 none, .httpStatus 429 none]
      = (.undef, 15000) ∧
    ashbyPost [.abortTimeout, .ok 5, .ok 5] = (.thrown .timeoutError, 0) ∧
    ashbyPost [.netError, .ok 3, .ok 3] = (.value 3, 4100) ∧
    ashbyPost [.netError, .netError, .netError] = (.thrown .netRaw, 8200) ∧
    ashbyPost [.httpStatus 500 none, .httpStatus 500 none, .httpStatus 500 none]
      = (.thrown (.apiError 500), 8200) ∧
    gemGet [.httpStatus 401 none, .ok 5, .ok 5]
      = (.thrown (.apiError 401), 0) ∧
    gemGet [.httpStatus 429 (some 2), .ok 5, .ok 5] = (.value 5, 2000) ∧
    gemGet [.httpStatus 429 none, .httpStatus 429 none, .httpStatus 429 none]
      = (.thrown .maxRetries, 3000) ∧
    gemGet [.netError, .ok 5, .ok 5] = (.thrown .netRaw, 0) := by decide
